import Mathlib

/-!
Verification of the gh-sync repository mirroring tool.

Shallow embedding of `gh-sync.py` (the maintained entry point of the
`itzmeanjan/gh-sync` repository; `sync.py` is an earlier, simpler variant of
the same script, superseded by `gh-sync.py`'s stricter policy which the spec
adopts).

External effects are modelled as oracles:
* the filesystem probes `os.path.exists` / `os.path.isdir(.git)` become a
  `RepoFS` record of the two booleans the code reads;
* each git child process becomes a query to an oracle
  `run : GitCmd → StepResult` telling whether the invocation exited with a
  code, exceeded its wall-clock bound, or failed to spawn (raising an
  exception in `asyncio.create_subprocess_exec`);
* every effectful operation the code performs is recorded in an event trace
  (`Event.spawn cmd timeout` for a child-process invocation attempt together
  with the wall-clock bound governing its wait, `Event.terminate cmd` for the
  termination signal sent on timeout).  An empty trace therefore means the
  code performed no child-process or filesystem-mutating operation at all.
-/

namespace GhSync

/-- A repository entry as assembled by `fetch_repositories`:
`{"name": node["name"], "url": node["url"]}`. -/
structure RepositoryRef where
  name : String
  url : String
deriving Repr, DecidableEq

/-- The four git child-process invocations `sync_repository` can make. -/
inductive GitCmd
  | fetch
  | pull
  | submoduleUpdate
  | clone
deriving Repr, DecidableEq

/-- Timeout constant of gh-sync.py line 16: 300 seconds (5 minutes) per
child-process wait. -/
def GIT_TIMEOUT : Nat := 300

/-- The exact argument vectors passed to `asyncio.create_subprocess_exec`
for each git invocation (gh-sync.py lines 81-91, 105-107, 121-131, 147-149). -/
def gitArgs (repoUrl localPath : String) : GitCmd → List String
  | .fetch => ["git", "fetch", "--all", "--prune", "--tags"]
  | .pull => ["git", "pull", "--ff-only"]
  | .submoduleUpdate => ["git", "submodule", "update", "--init", "--recursive"]
  | .clone => ["git", "clone", "--recursive", repoUrl, localPath]

/-- Result of one child-process invocation, as observed by the code:
the awaited `process.wait()` finished with an exit code, or
`asyncio.wait_for` raised `TimeoutError`, or process creation itself raised
an exception (message `msg`). -/
inductive StepResult
  | exited (code : Int)
  | timedOut
  | spawnFailed (msg : String)
deriving Repr, DecidableEq

/-- An effectful operation performed by `sync_repository`.
`spawn cmd t` records a child-process invocation attempt whose wait is
bounded by `t` seconds; `terminate cmd` records the best-effort
`process.terminate()` sent when that wait times out (its own errors are
swallowed by the bare `except: pass`). -/
inductive Event
  | spawn (cmd : GitCmd) (timeoutSecs : Nat)
  | terminate (cmd : GitCmd)
deriving Repr, DecidableEq

/-- Structured form of the `str | None` value `sync_repository` returns:
`success` is `None`; each failure constructor corresponds to one of the
`return f"..."` sites and renders to that exact string via `renderOutcome`. -/
inductive SyncOutcome
  | success
  | timeoutFailure (step : GitCmd)
  | exitFailure (step : GitCmd) (code : Int)
  | skippedNonGit
  | unexpectedFailure (detail : String)
deriving Repr, DecidableEq

/-- The stage taxonomy of the spec's `SyncOutcome`
(`stage ∈ {fetch, pull, submodule_update, clone, skipped_non_git, timeout,
unexpected}`); `none` for success. -/
inductive Stage
  | fetch
  | pull
  | submodule_update
  | clone
  | skipped_non_git
  | timeout
  | unexpected
deriving Repr, DecidableEq

/-- Stage tag of an outcome. -/
def SyncOutcome.stage : SyncOutcome → Option Stage
  | .success => none
  | .timeoutFailure _ => some .timeout
  | .exitFailure .fetch _ => some .fetch
  | .exitFailure .pull _ => some .pull
  | .exitFailure .submoduleUpdate _ => some .submodule_update
  | .exitFailure .clone _ => some .clone
  | .skippedNonGit => some .skipped_non_git
  | .unexpectedFailure _ => some .unexpected

/-- The two filesystem probes `sync_repository` reads:
`os.path.exists(local_path)` and `os.path.isdir(os.path.join(local_path, ".git"))`. -/
structure RepoFS where
  pathExists : Bool
  gitDirIsDir : Bool
deriving Repr, DecidableEq

/-- Outcome of one repository's sync plus the trace of effectful operations
it performed, in order. -/
structure SyncTrace where
  outcome : SyncOutcome
  events : List Event
deriving Repr, DecidableEq

/-- The update branch of `sync_repository` (gh-sync.py lines 79-142): fetch,
then fast-forward-only pull, then recursive submodule update, each spawned
and awaited under `GIT_TIMEOUT`, short-circuiting on timeout (after sending a
termination signal) and on non-zero exit; an exception while spawning
propagates to the outer handler and becomes an unexpected-failure return. -/
def updateFlow (run : GitCmd → StepResult) : SyncTrace :=
  match run .fetch with
  | .timedOut =>
      ⟨.timeoutFailure .fetch, [.spawn .fetch GIT_TIMEOUT, .terminate .fetch]⟩
  | .spawnFailed m => ⟨.unexpectedFailure m, [.spawn .fetch GIT_TIMEOUT]⟩
  | .exited c1 =>
    if c1 ≠ 0 then ⟨.exitFailure .fetch c1, [.spawn .fetch GIT_TIMEOUT]⟩
    else
      match run .pull with
      | .timedOut =>
          ⟨.timeoutFailure .pull,
            [.spawn .fetch GIT_TIMEOUT, .spawn .pull GIT_TIMEOUT, .terminate .pull]⟩
      | .spawnFailed m =>
          ⟨.unexpectedFailure m, [.spawn .fetch GIT_TIMEOUT, .spawn .pull GIT_TIMEOUT]⟩
      | .exited c2 =>
        if c2 ≠ 0 then
          ⟨.exitFailure .pull c2, [.spawn .fetch GIT_TIMEOUT, .spawn .pull GIT_TIMEOUT]⟩
        else
          match run .submoduleUpdate with
          | .timedOut =>
              ⟨.timeoutFailure .submoduleUpdate,
                [.spawn .fetch GIT_TIMEOUT, .spawn .pull GIT_TIMEOUT,
                  .spawn .submoduleUpdate GIT_TIMEOUT, .terminate .submoduleUpdate]⟩
          | .spawnFailed m =>
              ⟨.unexpectedFailure m,
                [.spawn .fetch GIT_TIMEOUT, .spawn .pull GIT_TIMEOUT,
                  .spawn .submoduleUpdate GIT_TIMEOUT]⟩
          | .exited c3 =>
            if c3 ≠ 0 then
              ⟨.exitFailure .submoduleUpdate c3,
                [.spawn .fetch GIT_TIMEOUT, .spawn .pull GIT_TIMEOUT,
                  .spawn .submoduleUpdate GIT_TIMEOUT]⟩
            else
              ⟨.success,
                [.spawn .fetch GIT_TIMEOUT, .spawn .pull GIT_TIMEOUT,
                  .spawn .submoduleUpdate GIT_TIMEOUT]⟩

/-- The clone branch of `sync_repository` (gh-sync.py lines 145-160):
one `git clone --recursive` spawned and awaited under `GIT_TIMEOUT`. -/
def cloneFlow (run : GitCmd → StepResult) : SyncTrace :=
  match run .clone with
  | .timedOut =>
      ⟨.timeoutFailure .clone, [.spawn .clone GIT_TIMEOUT, .terminate .clone]⟩
  | .spawnFailed m => ⟨.unexpectedFailure m, [.spawn .clone GIT_TIMEOUT]⟩
  | .exited c =>
    if c ≠ 0 then ⟨.exitFailure .clone c, [.spawn .clone GIT_TIMEOUT]⟩
    else ⟨.success, [.spawn .clone GIT_TIMEOUT]⟩

/-- The body of `sync_repository` (gh-sync.py lines 66-172) after acquiring
its gate permit: dispatch on the two filesystem probes, then run the chosen
flow.
The `except Exception` handler that converts spawn failures into the
"Unexpected error" return is folded into the flows' `spawnFailed` cases;
`skippedNonGit` performs no effectful operation at all. -/
def syncRepository (fs : RepoFS) (run : GitCmd → StepResult) : SyncTrace :=
  if fs.pathExists then
    if fs.gitDirIsDir then updateFlow run
    else ⟨.skippedNonGit, []⟩
  else cloneFlow run

/-- The `str | None` value `sync_repository` actually returns for each
outcome, reproducing the f-strings of gh-sync.py verbatim. -/
def renderOutcome (repoName : String) : SyncOutcome → Option String
  | .success => none
  | .skippedNonGit =>
      some ("Skipping " ++ repoName ++ ": Directory exists but is not a git repository.")
  | .unexpectedFailure m => some ("Unexpected error with " ++ repoName ++ ": " ++ m)
  | .timeoutFailure .fetch =>
      some ("Timeout fetching " ++ repoName ++ " (>" ++ toString GIT_TIMEOUT ++ "s)")
  | .timeoutFailure .pull =>
      some ("Timeout pulling " ++ repoName ++ " (>" ++ toString GIT_TIMEOUT ++ "s)")
  | .timeoutFailure .submoduleUpdate =>
      some ("Timeout updating submodules for " ++ repoName ++ " (>" ++ toString GIT_TIMEOUT ++ "s)")
  | .timeoutFailure .clone =>
      some ("Timeout cloning " ++ repoName ++ " (>" ++ toString GIT_TIMEOUT ++ "s)")
  | .exitFailure .fetch c =>
      some ("Error fetching " ++ repoName ++ ": git fetch exited with " ++ toString c)
  | .exitFailure .pull c =>
      some ("Error pulling " ++ repoName ++ ": git pull exited with " ++ toString c)
  | .exitFailure .submoduleUpdate c =>
      some ("Error updating submodules for " ++ repoName ++ ": git submodule update exited with "
        ++ toString c)
  | .exitFailure .clone c =>
      some ("Error cloning " ++ repoName ++ ": git clone exited with " ++ toString c)

/-- The child-process invocations attempted in a trace, in order. -/
def spawnedCmds (evs : List Event) : List GitCmd :=
  evs.filterMap fun e =>
    match e with
    | .spawn c _ => some c
    | .terminate _ => none

/-- The wall-clock bounds attached to the child-process invocations of a
trace, in order. -/
def spawnTimeouts (evs : List Event) : List Nat :=
  evs.filterMap fun e =>
    match e with
    | .spawn _ t => some t
    | .terminate _ => none

/-- The sub-steps executed up to and including a given step, per the fixed
order of `sync_repository` (clone flow has the single clone step; update flow
runs fetch, then pull, then submodule update). -/
def stepsUpTo : GitCmd → List GitCmd
  | .fetch => [.fetch]
  | .pull => [.fetch, .pull]
  | .submoduleUpdate => [.fetch, .pull, .submoduleUpdate]
  | .clone => [.clone]

/-- The `pageInfo` object of one GraphQL response page:
`{endCursor, hasNextPage}`. -/
structure PageInfo where
  endCursor : String
  hasNextPage : Bool
deriving Repr, DecidableEq

/-- One page of the paginated `viewer.repositories` response:
`{totalCount, pageInfo, nodes}`, where a node may be null (skipped by the
`if node:` guard in `fetch_repositories`). -/
structure Page where
  totalCount : Nat
  pageInfo : PageInfo
  nodes : List (Option RepositoryRef)
deriving Repr, DecidableEq

/-- Result of the listing phase: the accumulated repository list, or the
first transport/query error raised by `session.execute` (which propagates
out of `fetch_repositories`, discarding the accumulator), or fuel
exhaustion (the Python `while True` loop would still be running). -/
inductive FetchResult
  | ok (repos : List RepositoryRef)
  | err (msg : String)
  | outOfFuel
deriving Repr, DecidableEq

/-- Listing result together with the cursor strings substituted for
`END_CURSOR` in each query round, in order. -/
structure FetchTrace where
  result : FetchResult
  sentCursors : List String
deriving Repr, DecidableEq

/-- The Python `end_cursor = f'"{cursor}"'` quoting of an `endCursor`
value for the next round's query. -/
def quoteCursor (c : String) : String := "\"" ++ c ++ "\""

/-- The non-null nodes of a page, in response order — exactly the entries
the `for node in ...: if node:` loop appends. -/
def pageRepos (p : Page) : List RepositoryRef := p.nodes.filterMap id

/-- The `while True` loop of `fetch_repositories` (gh-sync.py lines 42-61).
The transport is an oracle giving the response (or error) of each query
round; the loop tracks the cursor string substituted into the query,
accumulates non-null nodes, and stops when `hasNextPage` is false.  `fuel`
bounds the number of rounds so the function is total; `outOfFuel` marks runs
on which the Python loop would not yet have terminated. -/
def fetchLoop (api : Nat → Except String Page) :
    Nat → Nat → String → List RepositoryRef → List String → FetchTrace
  | 0, _, _, _, sent => ⟨.outOfFuel, sent⟩
  | fuel + 1, round, cursor, acc, sent =>
    match api round with
    | .error e => ⟨.err e, sent ++ [cursor]⟩
    | .ok page =>
      if page.pageInfo.hasNextPage then
        fetchLoop api fuel (round + 1) (quoteCursor page.pageInfo.endCursor)
          (acc ++ pageRepos page) (sent ++ [cursor])
      else ⟨.ok (acc ++ pageRepos page), sent ++ [cursor]⟩

/-- `fetch_repositories` (gh-sync.py lines 37-63): start from the literal
cursor string `null` with an empty accumulator. -/
def fetchRepositories (api : Nat → Except String Page) (fuel : Nat) : FetchTrace :=
  fetchLoop api fuel 0 ("null") [] []

/-- A transport oracle that answers round `i` with the `i`-th page of `ps`
and raises error `e` on any later round. -/
def pagesApi (ps : List Page) (e : String) : Nat → Except String Page :=
  fun i =>
    match ps[i]? with
    | some p => .ok p
    | none => .error e

/-- The `str | None` values returned by the `sync_repository` tasks launched
by `main` (gh-sync.py line 205), one per fetched repository, aligned with
`asyncio.gather`'s order guarantee. -/
def syncResults (fs : RepositoryRef → RepoFS) (run : RepositoryRef → GitCmd → StepResult)
    (repos : List RepositoryRef) : List (Option String) :=
  repos.map fun r => renderOutcome r.name (syncRepository (fs r) (run r)).outcome

/-- All effectful operations performed by the launched tasks, tagged with the
repository name.  Cross-task interleaving is immaterial to every claim
below (only emptiness and per-task content are used), so the canonical
launch-order serialization is recorded. -/
def syncEventsAll (fs : RepositoryRef → RepoFS) (run : RepositoryRef → GitCmd → StepResult)
    (repos : List RepositoryRef) : List (String × Event) :=
  (repos.map fun r => (syncRepository (fs r) (run r)).events.map fun e => (r.name, e)).flatten

/-- The oracles feeding one whole run of `main`: presence of
`GITHUB_API_TOKEN`, the transport responses, the loop fuel, and each
repository's filesystem state and git-invocation results. -/
structure World where
  tokenPresent : Bool
  api : Nat → Except String Page
  fuel : Nat
  fs : RepositoryRef → RepoFS
  run : RepositoryRef → GitCmd → StepResult

/-- How one run of `main` (gh-sync.py lines 175-217) ends: early exit for a
missing token, early exit on a listing error, a listing loop that has not
terminated, or a completed run carrying every task's returned value and the
non-`None` values collected into `failures` (line 208). -/
inductive MainResult
  | missingToken
  | listingFailed (msg : String)
  | listingHung
  | completed (results : List (Option String)) (failures : List String)
deriving Repr, DecidableEq

/-- Outcome of a `main` run plus all sync-task events it performed. -/
structure RunReport where
  result : MainResult
  events : List (String × Event)
deriving Repr, DecidableEq

/-- The body of `main` (gh-sync.py lines 175-217): check the token (exit 1 if
absent), run the listing (exit 1 on error, before any sync task is created),
then launch one `sync_repository` task per fetched repository and collect the
non-`None` results as failures. -/
def mainReport (w : World) : RunReport :=
  if !w.tokenPresent then ⟨.missingToken, []⟩
  else
    match (fetchRepositories w.api w.fuel).result with
    | .err e => ⟨.listingFailed e, []⟩
    | .outOfFuel => ⟨.listingHung, []⟩
    | .ok repos =>
      let results := syncResults w.fs w.run repos
      ⟨.completed results (results.filterMap id), syncEventsAll w.fs w.run repos⟩

/-- The process exit code each `main` ending produces: `sys.exit(1)` for a
missing token, a listing failure, or a non-empty failure list; falling off
`main` (exit 0) when every repository synced; `none` when the listing loop
never terminates. -/
def exitIndicator : MainResult → Option Nat
  | .missingToken => some 1
  | .listingFailed _ => some 1
  | .listingHung => none
  | .completed _ failures => some (if failures.isEmpty then 0 else 1)

/-- The `__main__` block (gh-sync.py lines 220-225): a `KeyboardInterrupt`
escaping `asyncio.run(main())` is caught, a shutdown message is printed, and
the process exits with `sys.exit(0)` regardless of what `main` had done so
far; otherwise `main`'s own exit applies. -/
def topLevelExit (interrupted : Bool) (w : World) : Option Nat :=
  if interrupted then some 0 else exitIndicator (mainReport w).result

/-- `concurrency_limit = (os.cpu_count() or 1) * 2` (gh-sync.py line 202);
`os.cpu_count()` may return `None`, and Python's `or` replaces any falsy
value (`None` or `0`) with `1`. -/
def concurrencyLimit (cpuCount : Option Nat) : Nat :=
  (match cpuCount with
    | none => 1
    | some n => if n = 0 then 1 else n) * 2

/-- State of the counting admission gate (`asyncio.Semaphore`) together with
task counts: permits still available, tasks inside their `async with
semaphore` block, tasks not yet admitted, tasks finished. -/
structure GateState where
  available : Nat
  running : Nat
  pending : Nat
  done : Nat
deriving Repr, DecidableEq

/-- Initial gate state for a run: all permits free, every task pending
(gh-sync.py lines 203-206). -/
def gateInit (numRepos limit : Nat) : GateState :=
  ⟨limit, 0, numRepos, 0⟩

/-- One scheduler transition of the gated fan-out: a pending task is admitted
when a permit is available (entering `async with semaphore`, before any
filesystem or process work of its body), or a running task finishes —
normally, by failure, or by cancellation — and its permit is returned
(leaving the `async with` block runs the release unconditionally). -/
inductive GateStep : GateState → GateState → Prop
  | acquire (s : GateState) (ha : 0 < s.available) (hp : 0 < s.pending) :
      GateStep s ⟨s.available - 1, s.running + 1, s.pending - 1, s.done⟩
  | release (s : GateState) (hr : 0 < s.running) :
      GateStep s ⟨s.available + 1, s.running - 1, s.pending, s.done + 1⟩

/-- States reachable from a given gate state by scheduler transitions. -/
inductive GateReachable (s₀ : GateState) : GateState → Prop
  | refl : GateReachable s₀ s₀
  | tail {s t : GateState} : GateReachable s₀ s → GateStep s t → GateReachable s₀ t

end GhSync

namespace GhSync

/-! ## Helper lemmas on `syncRepository` -/

lemma syncRepository_nonGit (fs : RepoFS) (run : GitCmd → StepResult)
    (hex : fs.pathExists = true) (hgit : fs.gitDirIsDir = false) :
    syncRepository fs run = ⟨.skippedNonGit, []⟩ := by
  simp [syncRepository, hex, hgit]

lemma syncRepository_clone (fs : RepoFS) (run : GitCmd → StepResult)
    (hex : fs.pathExists = false) :
    syncRepository fs run = cloneFlow run := by
  simp [syncRepository, hex]

lemma syncRepository_update (fs : RepoFS) (run : GitCmd → StepResult)
    (hex : fs.pathExists = true) (hgit : fs.gitDirIsDir = true) :
    syncRepository fs run = updateFlow run := by
  simp [syncRepository, hex, hgit]

lemma cloneFlow_spawned (run : GitCmd → StepResult) :
    spawnedCmds (cloneFlow run).events = [.clone] := by
  rcases h : run .clone with c | _ | m <;>
    simp only [cloneFlow, h] <;> (try split) <;> simp [spawnedCmds]

lemma updateFlow_spawned_cases (run : GitCmd → StepResult) :
    spawnedCmds (updateFlow run).events = [.fetch] ∨
    spawnedCmds (updateFlow run).events = [.fetch, .pull] ∨
    spawnedCmds (updateFlow run).events = [.fetch, .pull, .submoduleUpdate] := by
  rcases h1 : run .fetch with c1 | _ | m1 <;>
  rcases h2 : run .pull with c2 | _ | m2 <;>
  rcases h3 : run .submoduleUpdate with c3 | _ | m3 <;>
    simp only [updateFlow, h1, h2, h3] <;>
    (try split) <;> (try split) <;> (try split) <;> simp [spawnedCmds]

/-! ## C1 -/

/-- C1: dispatch of `sync_repository` on the filesystem state: if the
local path does not exist, exactly one clone (full history: the argument
vector carries no history-limiting flag; `--recursive` for submodules) is
attempted and no update sub-step ever runs; if the path exists with a `.git`
directory, the update flow is entered (its first and only possible spawns
being fetch/pull/submodule-update) and a clone is never attempted; if the
path exists without the `.git` marker, the outcome is the skipped-non-git
failure and no child process is run. -/
theorem C1_dispatch (fs : RepoFS) (run : GitCmd → StepResult) :
    (fs.pathExists = false →
      spawnedCmds (syncRepository fs run).events = [.clone] ∧
      (∀ u p, gitArgs u p .clone = ["git", "clone", "--recursive", u, p])) ∧
    (fs.pathExists = true → fs.gitDirIsDir = true →
      syncRepository fs run = updateFlow run ∧
      GitCmd.clone ∉ spawnedCmds (syncRepository fs run).events ∧
      (spawnedCmds (syncRepository fs run).events).head? = some .fetch) ∧
    (fs.pathExists = true → fs.gitDirIsDir = false →
      syncRepository fs run = ⟨.skippedNonGit, []⟩) := by
  refine ⟨fun hex => ?_, fun hex hgit => ?_, fun hex hgit => syncRepository_nonGit fs run hex hgit⟩
  · rw [syncRepository_clone fs run hex]
    exact ⟨cloneFlow_spawned run, fun u p => rfl⟩
  · rw [syncRepository_update fs run hex hgit]
    refine ⟨rfl, ?_, ?_⟩
    · rcases updateFlow_spawned_cases run with h | h | h <;> rw [h] <;> decide
    · rcases updateFlow_spawned_cases run with h | h | h <;> rw [h] <;> rfl

/-- Witness for C1 at a concrete filesystem state and oracle. -/
theorem C1_dispatch_witness :
    spawnedCmds (syncRepository ⟨false, false⟩ (fun _ => .exited 0)).events = [.clone] :=
  ((C1_dispatch ⟨false, false⟩ (fun _ => .exited 0)).1 rfl).1

/-! ## C2 -/

/-- C2: in the update flow the three sub-steps run in the fixed order fetch,
pull, submodule-update (the attempted-invocation list is always one of the
three prefixes of that order); the pull is `git pull --ff-only` (no merge,
rebase, or force flag); when all three exit zero the outcome is success with
exactly those three invocations; and the first sub-step exiting non-zero
ends the flow with a failure tagged with that sub-step's stage, the later
sub-steps never being attempted. -/
theorem C2_updateOrder (fs : RepoFS) (run : GitCmd → StepResult)
    (hex : fs.pathExists = true) (hgit : fs.gitDirIsDir = true) :
    (∀ u p, gitArgs u p .pull = ["git", "pull", "--ff-only"]) ∧
    spawnedCmds (syncRepository fs run).events ∈
      [[GitCmd.fetch], [GitCmd.fetch, GitCmd.pull],
        [GitCmd.fetch, GitCmd.pull, GitCmd.submoduleUpdate]] ∧
    (run .fetch = .exited 0 → run .pull = .exited 0 → run .submoduleUpdate = .exited 0 →
      syncRepository fs run =
        ⟨.success, [.spawn .fetch GIT_TIMEOUT, .spawn .pull GIT_TIMEOUT,
          .spawn .submoduleUpdate GIT_TIMEOUT]⟩) ∧
    (∀ c1, run .fetch = .exited c1 → c1 ≠ 0 →
      syncRepository fs run = ⟨.exitFailure .fetch c1, [.spawn .fetch GIT_TIMEOUT]⟩ ∧
      SyncOutcome.stage (.exitFailure .fetch c1) = some .fetch) ∧
    (∀ c2, run .fetch = .exited 0 → run .pull = .exited c2 → c2 ≠ 0 →
      syncRepository fs run =
        ⟨.exitFailure .pull c2, [.spawn .fetch GIT_TIMEOUT, .spawn .pull GIT_TIMEOUT]⟩ ∧
      SyncOutcome.stage (.exitFailure .pull c2) = some .pull) ∧
    (∀ c3, run .fetch = .exited 0 → run .pull = .exited 0 →
      run .submoduleUpdate = .exited c3 → c3 ≠ 0 →
      syncRepository fs run =
        ⟨.exitFailure .submoduleUpdate c3,
          [.spawn .fetch GIT_TIMEOUT, .spawn .pull GIT_TIMEOUT,
            .spawn .submoduleUpdate GIT_TIMEOUT]⟩ ∧
      SyncOutcome.stage (.exitFailure .submoduleUpdate c3) = some .submodule_update) := by
  rw [syncRepository_update fs run hex hgit]
  refine ⟨fun u p => rfl, ?_, ?_, ?_, ?_, ?_⟩
  · rcases updateFlow_spawned_cases run with h | h | h <;> rw [h] <;> simp
  · intro h1 h2 h3
    simp [updateFlow, h1, h2, h3]
  · intro c1 h1 hc1
    simp [updateFlow, h1, hc1, SyncOutcome.stage]
  · intro c2 h1 h2 hc2
    simp [updateFlow, h1, h2, hc2, SyncOutcome.stage]
  · intro c3 h1 h2 h3 hc3
    simp [updateFlow, h1, h2, h3, hc3, SyncOutcome.stage]

/-- Witness for C2: a concrete oracle whose pull exits 4 after a clean
fetch short-circuits at the pull stage. -/
theorem C2_updateOrder_witness :
    syncRepository ⟨true, true⟩
        (fun c => if c = GitCmd.pull then .exited 4 else .exited 0) =
      ⟨.exitFailure .pull 4, [.spawn .fetch GIT_TIMEOUT, .spawn .pull GIT_TIMEOUT]⟩ :=
  ((C2_updateOrder ⟨true, true⟩
      (fun c => if c = GitCmd.pull then .exited 4 else .exited 0) rfl rfl).2.2.2.2.1
    4 (by decide) (by decide) (by decide)).1

/-! ## C4 -/

lemma cloneFlow_timeouts (run : GitCmd → StepResult) :
    spawnTimeouts (cloneFlow run).events =
      List.replicate (spawnedCmds (cloneFlow run).events).length GIT_TIMEOUT := by
  rcases h : run .clone with c | _ | m <;>
    simp only [cloneFlow, h] <;> (try split) <;> simp [spawnTimeouts, spawnedCmds]

lemma updateFlow_timeouts (run : GitCmd → StepResult) :
    spawnTimeouts (updateFlow run).events =
      List.replicate (spawnedCmds (updateFlow run).events).length GIT_TIMEOUT := by
  rcases h1 : run .fetch with c1 | _ | m1 <;>
  rcases h2 : run .pull with c2 | _ | m2 <;>
  rcases h3 : run .submoduleUpdate with c3 | _ | m3 <;>
    simp only [updateFlow, h1, h2, h3] <;>
    (try split) <;> (try split) <;> (try split) <;>
    simp [spawnTimeouts, spawnedCmds, List.replicate]

set_option linter.unnecessarySeqFocus false in
lemma cloneFlow_timeoutCase (run : GitCmd → StepResult) (s : GitCmd)
    (hs : (cloneFlow run).outcome = .timeoutFailure s) :
    spawnedCmds (cloneFlow run).events = stepsUpTo s ∧
      (cloneFlow run).events.getLast? = some (.terminate s) := by
  rcases h : run .clone with c | _ | m <;>
    simp only [cloneFlow, h] at hs ⊢ <;>
    (try split at hs) <;> simp_all [spawnedCmds, stepsUpTo] <;> (subst hs; decide)

lemma updateFlow_timeoutCase (run : GitCmd → StepResult) (s : GitCmd)
    (hs : (updateFlow run).outcome = .timeoutFailure s) :
    spawnedCmds (updateFlow run).events = stepsUpTo s ∧
      (updateFlow run).events.getLast? = some (.terminate s) := by
  rcases h1 : run .fetch with c1 | _ | m1 <;>
  rcases h2 : run .pull with c2 | _ | m2 <;>
  rcases h3 : run .submoduleUpdate with c3 | _ | m3 <;>
    simp only [updateFlow, h1, h2, h3] at hs ⊢ <;>
    (try split at hs) <;> (try split at hs) <;> (try split at hs) <;>
    simp_all [spawnedCmds, stepsUpTo] <;> (subst hs; decide)

/-- C4: every child-process invocation in both flows carries the fixed
wall-clock bound `GIT_TIMEOUT = 300` seconds; whenever the outcome is a
timeout failure on step `s`, the step's process was sent a termination
signal (the final recorded event), only the sub-steps up to `s` in the fixed
order were ever attempted — in the update flow the remaining sub-steps never
execute — and the outcome's stage is `timeout`, annotated (via `s`) with
which operation timed out. -/
theorem C4_timeoutPolicy (fs : RepoFS) (run : GitCmd → StepResult) :
    GIT_TIMEOUT = 300 ∧
    spawnTimeouts (syncRepository fs run).events =
      List.replicate (spawnedCmds (syncRepository fs run).events).length GIT_TIMEOUT ∧
    ∀ s, (syncRepository fs run).outcome = .timeoutFailure s →
      spawnedCmds (syncRepository fs run).events = stepsUpTo s ∧
      (syncRepository fs run).events.getLast? = some (.terminate s) ∧
      SyncOutcome.stage (.timeoutFailure s) = some .timeout := by
  rcases fs with ⟨pe, gd⟩
  cases pe <;> cases gd
  · exact ⟨rfl, cloneFlow_timeouts run, fun s hs =>
      ⟨(cloneFlow_timeoutCase run s hs).1, (cloneFlow_timeoutCase run s hs).2, rfl⟩⟩
  · exact ⟨rfl, cloneFlow_timeouts run, fun s hs =>
      ⟨(cloneFlow_timeoutCase run s hs).1, (cloneFlow_timeoutCase run s hs).2, rfl⟩⟩
  · refine ⟨rfl, ?_, ?_⟩
    · simp [syncRepository, spawnTimeouts, spawnedCmds]
    · intro s hs
      simp [syncRepository] at hs
  · exact ⟨rfl, updateFlow_timeouts run, fun s hs =>
      ⟨(updateFlow_timeoutCase run s hs).1, (updateFlow_timeoutCase run s hs).2, rfl⟩⟩

/-- Witness for C4: an update flow whose fetch times out records the
300-second bound, terminates the fetch, and attempts nothing further. -/
theorem C4_timeoutPolicy_witness :
    spawnedCmds (syncRepository ⟨true, true⟩ (fun _ => .timedOut)).events =
        stepsUpTo .fetch ∧
      (syncRepository ⟨true, true⟩ (fun _ => .timedOut)).events.getLast? =
        some (.terminate .fetch) ∧
      SyncOutcome.stage (.timeoutFailure .fetch) = some .timeout :=
  (C4_timeoutPolicy ⟨true, true⟩ (fun _ => .timedOut)).2.2 .fetch (by decide)

/-! ## C9 -/

/-- C9: when the local directory exists without the `.git` marker, the
outcome is the skipped-non-git failure (rendered as the exact skip message)
and the event trace is empty — no child process is spawned and no
filesystem-mutating operation is performed, so the directory contents are
unchanged. -/
theorem C9_skippedFrame (fs : RepoFS) (run : GitCmd → StepResult)
    (hex : fs.pathExists = true) (hgit : fs.gitDirIsDir = false) :
    (syncRepository fs run).outcome = .skippedNonGit ∧
    (syncRepository fs run).events = [] ∧
    ∀ nm, renderOutcome nm (syncRepository fs run).outcome =
      some ("Skipping " ++ nm ++ ": Directory exists but is not a git repository.") := by
  rw [syncRepository_nonGit fs run hex hgit]
  exact ⟨rfl, rfl, fun nm => rfl⟩

/-- Witness for C9 at a concrete filesystem state and oracle. -/
theorem C9_skippedFrame_witness :
    (syncRepository ⟨true, false⟩ (fun _ => .exited 0)).outcome = .skippedNonGit ∧
      (syncRepository ⟨true, false⟩ (fun _ => .exited 0)).events = [] :=
  ⟨(C9_skippedFrame ⟨true, false⟩ (fun _ => .exited 0) rfl rfl).1,
    (C9_skippedFrame ⟨true, false⟩ (fun _ => .exited 0) rfl rfl).2.1⟩

/-! ## Listing-phase lemmas -/

lemma fetchLoop_pages (api : Nat → Except String Page) (ps : List Page) :
    ∀ (start fuel : Nat) (cursor : String) (acc : List RepositoryRef) (sent : List String),
      ps ≠ [] →
      (∀ i p, ps[i]? = some p → api (start + i) = .ok p) →
      (∀ i p, ps[i]? = some p → i + 1 < ps.length → p.pageInfo.hasNextPage = true) →
      (∀ p, ps.getLast? = some p → p.pageInfo.hasNextPage = false) →
      ps.length ≤ fuel →
      fetchLoop api fuel start cursor acc sent =
        ⟨.ok (acc ++ (ps.map pageRepos).flatten),
          sent ++ cursor :: (ps.dropLast.map fun p => quoteCursor p.pageInfo.endCursor)⟩ := by
  induction ps with
  | nil => intro _ _ _ _ _ hne; exact absurd rfl hne
  | cons p rest ih =>
    intro start fuel cursor acc sent _ hApi hNext hLast hfuel
    obtain ⟨f, rfl⟩ : ∃ f, fuel = f + 1 :=
      ⟨fuel - 1, by simp only [List.length_cons] at hfuel; omega⟩
    have hp : api start = .ok p := by simpa using hApi 0 p (by simp)
    rcases hrest : rest with _ | ⟨q, rest'⟩
    · have hlastp : p.pageInfo.hasNextPage = false := hLast p (by simp [hrest])
      subst hrest
      simp [fetchLoop, hp, hlastp]
    · subst hrest
      have hnext : p.pageInfo.hasNextPage = true :=
        hNext 0 p (by simp) (by simp)
      have hrec := ih (start + 1) f (quoteCursor p.pageInfo.endCursor)
        (acc ++ pageRepos p) (sent ++ [cursor]) (by simp)
        (fun i pp hi => by
          have h1 := hApi (i + 1) pp (by simpa using hi)
          have h2 : start + (i + 1) = start + 1 + i := by omega
          rw [h2] at h1; exact h1)
        (fun i pp hi hlt => hNext (i + 1) pp (by simpa using hi)
          (by simp only [List.length_cons] at hlt ⊢; omega))
        (fun pp hpp => hLast pp (by simpa using hpp))
        (by simp only [List.length_cons] at hfuel ⊢; omega)
      simp only [fetchLoop, hp, hnext, if_true]
      rw [hrec]
      simp [List.append_assoc]

lemma fetchLoop_err (api : Nat → Except String Page) (ps : List Page) (emsg : String) :
    ∀ (start fuel : Nat) (cursor : String) (acc : List RepositoryRef) (sent : List String),
      (∀ i p, ps[i]? = some p → api (start + i) = .ok p) →
      (∀ p ∈ ps, p.pageInfo.hasNextPage = true) →
      api (start + ps.length) = .error emsg →
      ps.length < fuel →
      (fetchLoop api fuel start cursor acc sent).result = .err emsg := by
  induction ps with
  | nil =>
    intro start fuel cursor acc sent _ _ herr hfuel
    obtain ⟨f, rfl⟩ : ∃ f, fuel = f + 1 := ⟨fuel - 1, by omega⟩
    simp only [List.length_nil, Nat.add_zero] at herr
    simp [fetchLoop, herr]
  | cons p rest ih =>
    intro start fuel cursor acc sent hApi hall herr hfuel
    obtain ⟨f, rfl⟩ : ∃ f, fuel = f + 1 :=
      ⟨fuel - 1, by simp only [List.length_cons] at hfuel; omega⟩
    have hp : api start = .ok p := by simpa using hApi 0 p (by simp)
    have hnext : p.pageInfo.hasNextPage = true := hall p (by simp)
    simp only [fetchLoop, hp, hnext, if_true]
    exact ih (start + 1) f _ _ _
      (fun i pp hi => by
        have h1 := hApi (i + 1) pp (by simpa using hi)
        have h2 : start + (i + 1) = start + 1 + i := by omega
        rw [h2] at h1; exact h1)
      (fun pp hpp => hall pp (by simp [hpp]))
      (by
        have h2 : start + (p :: rest).length = start + 1 + rest.length := by
          simp only [List.length_cons]; omega
        rw [← h2]; exact herr)
      (by simp only [List.length_cons] at hfuel; omega)

/-! ## C5 -/

/-- C5: with a transport serving `N` pages, all but the last reporting
`hasNextPage`, the Lister performs exactly `N` query rounds, sending the
literal cursor `null` on the first and the quoted previous `endCursor` on
each later round, accumulates the non-null nodes of every page in response
order (null nodes silently skipped), terminates after the page with
`hasNextPage` false, and returns a collection whose size is the sum of the
per-page non-null node counts — equal to the reported `totalCount` whenever
the server's pages are consistent with it. -/
theorem C5_pagination (ps : List Page) (fuel : Nat) (e : String)
    (hne : ps ≠ [])
    (hNext : ∀ i p, ps[i]? = some p → i + 1 < ps.length → p.pageInfo.hasNextPage = true)
    (hLast : ∀ p, ps.getLast? = some p → p.pageInfo.hasNextPage = false)
    (hfuel : ps.length ≤ fuel) :
    fetchRepositories (pagesApi ps e) fuel =
      ⟨.ok ((ps.map pageRepos).flatten),
        "null" :: (ps.dropLast.map fun p => quoteCursor p.pageInfo.endCursor)⟩ ∧
    (fetchRepositories (pagesApi ps e) fuel).sentCursors.length = ps.length ∧
    ∀ repos, (fetchRepositories (pagesApi ps e) fuel).result = .ok repos →
      repos.length = (ps.map fun p => (pageRepos p).length).sum ∧
      ∀ T, (∀ p ∈ ps, p.totalCount = T) →
        (ps.map fun p => (pageRepos p).length).sum = T →
        repos.length = T := by
  have h1 : fetchRepositories (pagesApi ps e) fuel =
      ⟨.ok ((ps.map pageRepos).flatten),
        "null" :: (ps.dropLast.map fun p => quoteCursor p.pageInfo.endCursor)⟩ := by
    have hmain := fetchLoop_pages (pagesApi ps e) ps 0 fuel ("null") [] [] hne
      (fun i p hi => by simp [pagesApi, hi]) hNext hLast hfuel
    simpa [fetchRepositories] using hmain
  refine ⟨h1, ?_, ?_⟩
  · rw [h1]
    have hpos : 0 < ps.length := List.length_pos.mpr hne
    simp only [List.length_cons, List.length_map, List.length_dropLast]
    omega
  · intro repos hrep
    rw [h1] at hrep
    simp only [FetchResult.ok.injEq] at hrep
    subst hrep
    have hlen : (ps.map pageRepos).flatten.length =
        (ps.map fun p => (pageRepos p).length).sum := by
      rw [List.length_flatten, List.map_map]
      rfl
    exact ⟨hlen, fun T _ hsum => hlen.trans hsum⟩

/-- Concrete pages for the C5 witness: page A has a null middle node and
reports a next page; page B is last. -/
def pageA : Page := ⟨3, ⟨"curA", true⟩, [some ⟨"a", "ua"⟩, none, some ⟨"b", "ub"⟩]⟩

/-- Second concrete page for the C5 witness. -/
def pageB : Page := ⟨3, ⟨"curB", false⟩, [some ⟨"c", "uc"⟩]⟩

/-- Witness for C5: two pages, three non-null nodes, two query rounds with
cursors `null` then the quoted `endCursor` of page A. -/
theorem C5_pagination_witness :
    fetchRepositories (pagesApi [pageA, pageB] ("e")) 2 =
      ⟨.ok [⟨"a", "ua"⟩, ⟨"b", "ub"⟩, ⟨"c", "uc"⟩],
        ["null", quoteCursor ("curA")]⟩ := by
  have h := (C5_pagination [pageA, pageB] 2 ("e") (by decide)
    (fun i p hi hlt => by
      have hi0 : i = 0 := by simp only [List.length_cons, List.length_nil] at hlt; omega
      subst hi0
      simp only [List.getElem?_cons_zero, Option.some.injEq] at hi
      subst hi
      rfl)
    (fun p hp => by
      simp only [List.getLast?_cons_cons, List.getLast?_singleton, Option.some.injEq] at hp
      subst hp
      rfl)
    (by decide)).1
  rw [h]
  rfl

/-! ## C6 -/

/-- C6: if the transport raises an error on any round of the listing (here:
after `ps` successful pages that all report a next page), that first error
propagates out of `fetch_repositories` as the listing result, no partial
repository collection is ever returned, and `main` stops with exit code 1
and an empty sync-event trace — no per-repository filesystem or process
work has begun. -/
theorem C6_listingAbort (w : World) (ps : List Page) (emsg : String)
    (htok : w.tokenPresent = true)
    (hapi : ∀ i p, ps[i]? = some p → w.api i = .ok p)
    (hall : ∀ p ∈ ps, p.pageInfo.hasNextPage = true)
    (herr : w.api ps.length = .error emsg)
    (hfuel : ps.length < w.fuel) :
    (fetchRepositories w.api w.fuel).result = .err emsg ∧
    (∀ repos, (fetchRepositories w.api w.fuel).result ≠ .ok repos) ∧
    mainReport w = ⟨.listingFailed emsg, []⟩ ∧
    exitIndicator (mainReport w).result = some 1 := by
  have hres : (fetchRepositories w.api w.fuel).result = .err emsg := by
    have := fetchLoop_err w.api ps emsg 0 w.fuel ("null") [] []
      (fun i p hi => by simpa using hapi i p hi)
      hall (by simpa using herr) hfuel
    simpa [fetchRepositories] using this
  refine ⟨hres, ?_, ?_, ?_⟩
  · intro repos h
    rw [hres] at h
    cases h
  · simp [mainReport, htok, hres]
  · simp [mainReport, htok, hres, exitIndicator]

/-- A world whose transport errors on the very first round. -/
def errWorld : World :=
  ⟨true, fun _ => .error ("boom"), 1, fun _ => ⟨false, false⟩, fun _ _ => .exited 0⟩

/-- Witness for C6: the first-round transport error aborts the run with exit
code 1 before any sync event. -/
theorem C6_listingAbort_witness :
    mainReport errWorld = ⟨.listingFailed ("boom"), []⟩ :=
  (C6_listingAbort errWorld [] ("boom") rfl
    (fun i p hi => by simp at hi)
    (fun p hp => by simp at hp)
    rfl (by decide)).2.2.1

/-! ## C3 -/

lemma renderOutcome_eq_none (nm : String) (o : SyncOutcome) :
    renderOutcome nm o = none ↔ o = .success := by
  cases o with
  | success => simp [renderOutcome]
  | timeoutFailure s => cases s <;> simp [renderOutcome]
  | exitFailure s c => cases s <;> simp [renderOutcome]
  | skippedNonGit => simp [renderOutcome]
  | unexpectedFailure m => simp [renderOutcome]

lemma syncResults_failures_empty (fs : RepositoryRef → RepoFS)
    (run : RepositoryRef → GitCmd → StepResult) (repos : List RepositoryRef) :
    (syncResults fs run repos).filterMap id = [] ↔
      ∀ r ∈ repos, (syncRepository (fs r) (run r)).outcome = .success := by
  rw [syncResults, List.filterMap_map, List.filterMap_eq_nil_iff]
  constructor
  · intro h r hr
    exact (renderOutcome_eq_none r.name _).mp (h r hr)
  · intro h r hr
    exact (renderOutcome_eq_none r.name _).mpr (h r hr)

/-- C3: for a run that reaches the synchronization phase, `main` collects
every task's returned value in launch order, reports as failures exactly the
non-`None` values (each a message naming the repository and cause) in that
order, exits 0 exactly when every repository's outcome is success, and exits
1 (non-zero) exactly when at least one repository's outcome is a failure. -/
theorem C3_exitPolicy (w : World) (repos : List RepositoryRef)
    (htok : w.tokenPresent = true)
    (hfetch : (fetchRepositories w.api w.fuel).result = .ok repos) :
    mainReport w =
      ⟨.completed (syncResults w.fs w.run repos)
          ((syncResults w.fs w.run repos).filterMap id),
        syncEventsAll w.fs w.run repos⟩ ∧
    (exitIndicator (mainReport w).result = some 0 ↔
      ∀ r ∈ repos, (syncRepository (w.fs r) (w.run r)).outcome = .success) ∧
    (exitIndicator (mainReport w).result = some 1 ↔
      ∃ r ∈ repos, (syncRepository (w.fs r) (w.run r)).outcome ≠ .success) := by
  have hmain : mainReport w =
      ⟨.completed (syncResults w.fs w.run repos)
          ((syncResults w.fs w.run repos).filterMap id),
        syncEventsAll w.fs w.run repos⟩ := by
    simp [mainReport, htok, hfetch]
  refine ⟨hmain, ?_, ?_⟩
  · rw [hmain]
    simp only [exitIndicator, Option.some.injEq]
    rw [← syncResults_failures_empty w.fs w.run repos]
    constructor
    · intro h
      by_contra hne
      rw [if_neg (by simpa [List.isEmpty_iff] using hne)] at h
      exact one_ne_zero h
    · intro h
      rw [if_pos (by simpa [List.isEmpty_iff] using h)]
  · rw [hmain]
    simp only [exitIndicator, Option.some.injEq]
    have hiff : (∃ r ∈ repos, (syncRepository (w.fs r) (w.run r)).outcome ≠ .success) ↔
        (syncResults w.fs w.run repos).filterMap id ≠ [] := by
      constructor
      · rintro ⟨r, hr, hne⟩ hemp
        exact hne ((syncResults_failures_empty w.fs w.run repos).mp hemp r hr)
      · intro hne
        by_contra hno
        push_neg at hno
        exact hne ((syncResults_failures_empty w.fs w.run repos).mpr hno)
    rw [hiff]
    constructor
    · intro h hemp
      rw [if_pos (by simpa [List.isEmpty_iff] using hemp)] at h
      exact zero_ne_one h
    · intro h
      rw [if_neg (by simpa [List.isEmpty_iff] using h)]

/-- A world whose transport serves one single-node page and whose every git
invocation exits 0. -/
def okWorld : World :=
  ⟨true, pagesApi [⟨1, ⟨"c0", false⟩, [some ⟨"a", "u"⟩]⟩] ("x"), 2,
    fun _ => ⟨false, false⟩, fun _ _ => .exited 0⟩

/-- Witness for C3: one repository, clean clone, exit code 0. -/
theorem C3_exitPolicy_witness :
    exitIndicator (mainReport okWorld).result = some 0 :=
  ((C3_exitPolicy okWorld [⟨"a", "u"⟩] rfl (by rfl)).2.1).mpr (by decide)

/-! ## C7 -/

/-- C7: a failure to spawn the child process (an exception other than a
timeout or non-zero exit) is caught inside the task and converted into the
unexpected-stage failure value carrying the exception message — shown for
the clone flow and for the update flow — so it never crosses the task
boundary; moreover each repository's collected result is a function of that
repository's own filesystem state and oracle alone: a repository whose own
sync succeeds yields `None` whatever every sibling does, and changing other
repositories' worlds cannot change its entry. -/
theorem C7_unexpectedIsolation :
    (∀ (fs : RepoFS) (run : GitCmd → StepResult) m,
      fs.pathExists = false → run GitCmd.clone = .spawnFailed m →
      (syncRepository fs run).outcome = .unexpectedFailure m ∧
      SyncOutcome.stage (.unexpectedFailure m) = some .unexpected ∧
      ∀ nm, renderOutcome nm (.unexpectedFailure m) =
        some ("Unexpected error with " ++ nm ++ ": " ++ m)) ∧
    (∀ (fs : RepoFS) (run : GitCmd → StepResult) m,
      fs.pathExists = true → fs.gitDirIsDir = true →
      run GitCmd.fetch = .spawnFailed m →
      (syncRepository fs run).outcome = .unexpectedFailure m) ∧
    (∀ (repos : List RepositoryRef) (fs : RepositoryRef → RepoFS)
      (run : RepositoryRef → GitCmd → StepResult) (i : Nat) (r : RepositoryRef),
      repos[i]? = some r →
      (syncRepository (fs r) (run r)).outcome = .success →
      (syncResults fs run repos)[i]? = some none) ∧
    (∀ (repos : List RepositoryRef) (fs fs₂ : RepositoryRef → RepoFS)
      (run run₂ : RepositoryRef → GitCmd → StepResult) (i : Nat) (r : RepositoryRef),
      repos[i]? = some r → fs r = fs₂ r → run r = run₂ r →
      (syncResults fs run repos)[i]? = (syncResults fs₂ run₂ repos)[i]?) := by
  refine ⟨?_, ?_, ?_, ?_⟩
  · intro fs run m hex h
    rw [syncRepository_clone fs run hex]
    exact ⟨by simp [cloneFlow, h], rfl, fun nm => rfl⟩
  · intro fs run m hex hgit h
    rw [syncRepository_update fs run hex hgit]
    simp [updateFlow, h]
  · intro repos fs run i r hrep hsucc
    simp [syncResults, List.getElem?_map, hrep, hsucc, renderOutcome]
  · intro repos fs fs₂ run run₂ i r hrep hfs hrun
    simp only [syncResults, List.getElem?_map, hrep]
    simp [hfs, hrun]

/-- Witness for C7: a clone-flow spawn failure becomes the unexpected
failure carrying the message. -/
theorem C7_unexpectedIsolation_witness :
    (syncRepository ⟨false, false⟩ (fun _ => .spawnFailed ("boom"))).outcome =
      .unexpectedFailure ("boom") :=
  (C7_unexpectedIsolation.1 ⟨false, false⟩ (fun _ => .spawnFailed ("boom"))
    ("boom") rfl rfl).1

/-! ## C10 -/

/-- C10: a run interrupted by a keyboard interrupt exits with code 0
whatever the world — in particular however many repositories had failed or
whether any work completed — while an uninterrupted run exits with `main`'s
own exit indicator. -/
theorem C10_interruptExit (w : World) :
    topLevelExit true w = some 0 ∧
    topLevelExit false w = exitIndicator (mainReport w).result :=
  ⟨rfl, rfl⟩

/-! ## C8 -/

lemma gateInvariant (limit n : Nat) (s : GateState)
    (h : GateReachable (gateInit n limit) s) :
    s.available + s.running = limit := by
  induction h with
  | refl => simp [gateInit]
  | tail hr hstep ih =>
    rename_i s t
    cases hstep with
    | acquire ha hp =>
      show s.available - 1 + (s.running + 1) = limit
      omega
    | release hr2 =>
      show s.available + 1 + (s.running - 1) = limit
      omega

/-- C8: the concurrency limit computed by `main` equals
`max(1, logical_cpu_count) * 2` (with a missing CPU count treated as 1), and
in every state the gated fan-out can reach from its initial state — permits
all free, every task pending — the number of tasks holding a permit (the
tasks inside their `async with semaphore` block, where all their filesystem
and process work happens, ended only by a release on success, failure, or
cancellation) never exceeds that limit, for a repository list of any size. -/
theorem C8_gateBound (cpu : Option Nat) (n : Nat) (s : GateState)
    (hs : GateReachable (gateInit n (concurrencyLimit cpu)) s) :
    s.running ≤ concurrencyLimit cpu ∧
    concurrencyLimit cpu = max 1 (cpu.getD 0) * 2 := by
  constructor
  · have := gateInvariant (concurrencyLimit cpu) n s hs
    omega
  · rcases cpu with _ | k
    · decide
    · simp only [concurrencyLimit, Option.getD_some]
      split <;> omega

/-- Witness for C8 at the initial state of a 5-task run on 4 CPUs. -/
theorem C8_gateBound_witness :
    (gateInit 5 (concurrencyLimit (some 4))).running ≤ concurrencyLimit (some 4) ∧
      concurrencyLimit (some 4) = max 1 ((some 4 : Option Nat).getD 0) * 2 :=
  C8_gateBound (some 4) 5 (gateInit 5 (concurrencyLimit (some 4))) GateReachable.refl

end GhSync
